import Mathlib

/-!
Shallow embedding of the technomancy game engine core
(`src/src/lib.rs`, `src/core/src/lib.rs`, `src/core/src/card.rs`,
`src/core/src/effect.rs`, `src/technomancy_engine/src/effect.rs`),
together with theorems settling the specification claims about
`GameImplV1::apply_atoms` and `GameImplV1::run`.

Modelling conventions:
* UUID-based identifiers are modelled as `Nat` (equality is all the code uses).
* `HashMap`/`HashSet` values are modelled as association lists / lists with
  first-match lookup and dedup insertion; iteration order of Rust hash maps is
  arbitrary, the model fixes the list order.
* Rust panics (`todo!`, `unreachable!`, `unwrap`, out-of-bounds indexing) are
  modelled as the `StepError.panic` outcome, distinct from `GameError` results.
* The external `rand`/`rand_xoshiro` crates (deterministic seeded RNG) are
  modelled abstractly by `RandApi`: a state type `RandState := Nat` plus
  deterministic functions for drawing an identifier and shuffling a list.
* The outside oracle (RPC client) is modelled by `OutsideAnswers`, a
  deterministic record of answer functions; RPC transport failures are not
  modelled (no claim concerns them).
-/

namespace Technomancy

/-- Identifier for a player (a UUID in the source, modelled as `Nat`). -/
abbrev PlayerId := Nat

/-- Identifier for a static card definition. -/
abbrev CardId := Nat

/-- Identifier for a transient game object. -/
abbrev ObjectId := Nat

/-- Per-game identity of a physical card. -/
abbrev LibraryCardId := Nat

/-- `core::TargetId`: the target of an effect. -/
inductive TargetId
  | player (p : PlayerId)
  | object (o : ObjectId)
deriving DecidableEq, Repr

/-- `core::ZoneId`: addresses of the game zones. -/
inductive ZoneId
  | hand (p : PlayerId)
  | library (p : PlayerId)
  | discard (p : PlayerId)
  | battlefield
  | stack
deriving DecidableEq, Repr

/-- `core::effect::EffectInfo`: a decision value attached to an object. -/
inductive EffectInfo
  | singleTarget (t : TargetId)
deriving DecidableEq, Repr

/-- The per-object choices map `HashMap<(usize, String), EffectInfo>`,
modelled as an association list. -/
abbrev Choices := List ((Nat × String) × EffectInfo)

/-- `core::GameAtom`: the smallest unit of game-state mutation. -/
inductive GameAtom
  | startGame
  | keepHand (player : PlayerId)
  | shuffleHandIntoLibrary (player : PlayerId)
  | drawCards (player : PlayerId) (count : Nat)
  | dealDamage (amount : Nat) (source : ObjectId) (target : TargetId)
  | passPriority (player : PlayerId)
  | playerPlayCard (player : PlayerId) (zfrom : ZoneId) (object : ObjectId) (choices : Choices)
  | resetPriority
  | popStack
deriving DecidableEq, Repr

/-- `core::effect::ExecuteFailure`: handler-level failure causes. -/
inductive ExecuteFailure
  | invalidEffectInfo (name : String)
  | noControllerFound
deriving DecidableEq, Repr

/-- `core::GameError`: the engine's error taxonomy. -/
inductive GameError
  | gameAlreadyRunning
  | keepHandDuringGame
  | invalidAction (listLength : Nat) (selectedAction : Nat)
  | objectNotFoundInZone (zone : ZoneId) (object : ObjectId)
  | invalidPlayerPassing (player : PlayerId)
  | noUnderlyingCard (object : ObjectId)
  | cardNotFound (card : CardId)
  | invalidChoiceAmount (expected : Nat) (received : Nat)
  | effectExecuteFailure (failure : ExecuteFailure)
  | invalidCardState
deriving DecidableEq, Repr

/-- Outcome of a step of Rust code that can either return a `GameError`
(`Result::Err`) or panic (`todo!`, `unreachable!`, `unwrap`, out-of-bounds
indexing). -/
inductive StepError
  | err (e : GameError)
  | panic (msg : String)
deriving DecidableEq, Repr

/-- `core::GameObject`. -/
structure GameObject where
  id : ObjectId
  library_card_id : Option LibraryCardId
  underlying_card : Option CardId
  controller : Option PlayerId
  choices : Choices
deriving DecidableEq, Repr

/-- `core::GameZone`: an ordered sequence of game objects. -/
structure GameZone where
  objects : List GameObject
deriving DecidableEq, Repr

/-- `GameZone::empty`. -/
def GameZone.empty : GameZone := ⟨[]⟩

/-- `core::GameStage`. The `HashSet<PlayerId>` of players keeping is modelled
as a duplicate-free list. -/
inductive GameStage
  | keepHand (players_keeping : List PlayerId)
  | gameRunning
deriving DecidableEq, Repr

/-- `core::GameState`: one snapshot. The `zones` hash map is an association
list with unique keys. -/
structure GameState where
  zones : List (ZoneId × GameZone)
  active_player_order : List PlayerId
  unpassed_players : List PlayerId
  game_stage : GameStage
deriving DecidableEq, Repr

/-- `core::Player`. -/
structure Player where
  id : PlayerId
  initial_cards : List CardId
deriving DecidableEq, Repr

/-- First-match lookup in the zones association list (`HashMap::get`). -/
def zonesGet : List (ZoneId × GameZone) → ZoneId → Option GameZone
  | [], _ => none
  | (k, v) :: rest, z => if k = z then some v else zonesGet rest z

/-- In-place update of a present key in the zones association list
(the mutation performed through `HashMap::get_mut` / `get_many_mut`).
A missing key leaves the list unchanged. -/
def zonesSet : List (ZoneId × GameZone) → ZoneId → GameZone → List (ZoneId × GameZone)
  | [], _, _ => []
  | (k, v) :: rest, z, w => if k = z then (k, w) :: rest else (k, v) :: zonesSet rest z w

/-- `HashSet::insert` on the modelled set of keeping players. -/
def setInsert (s : List PlayerId) (p : PlayerId) : List PlayerId :=
  if p ∈ s then s else s ++ [p]

/-- `Vec::remove` of the first object whose id matches, returning the removed
object and the remainder (models `position` followed by `remove` in
`PlayerPlayCard`). -/
def removeFirstById : List GameObject → ObjectId → Option (GameObject × List GameObject)
  | [], _ => none
  | o :: rest, oid =>
    if o.id = oid then some (o, rest)
    else (removeFirstById rest oid).map (fun x => (x.1, o :: x.2))

/-- State of the deterministic seeded RNG, modelled abstractly. -/
abbrev RandState := Nat

/-- Abstract model of the external `rand`/`rand_xoshiro` crates: drawing the
bytes of one fresh identifier, and shuffling a list of objects, each advancing
the RNG state deterministically. -/
structure RandApi where
  draw_uuid : RandState → Nat × RandState
  shuffle_objects : RandState → List GameObject → List GameObject × RandState

/-- `GameState::get_hand` (the source unwraps; the zone is present for every
player of the game, `GameZone.empty` stands in otherwise). -/
def GameState.get_hand (st : GameState) (p : PlayerId) : GameZone :=
  (zonesGet st.zones (.hand p)).getD GameZone.empty

/-- `GameState::get_stack`. -/
def GameState.get_stack (st : GameState) : GameZone :=
  (zonesGet st.zones .stack).getD GameZone.empty

/-- `GameState::get_battlefield`. -/
def GameState.get_battlefield (st : GameState) : GameZone :=
  (zonesGet st.zones .battlefield).getD GameZone.empty

/-- `GameState::get_object_from_zone`. -/
def GameState.get_object_from_zone (st : GameState) (zfrom : ZoneId) (obj : ObjectId) :
    Option GameObject :=
  match zonesGet st.zones zfrom with
  | none => none
  | some zone => zone.objects.find? (fun o => o.id = obj)

/-- One iteration of the `for atom in atoms` loop body of
`GameImplV1::apply_atoms`, acting on the successor state under construction
and the game's RNG. -/
def apply_atom (rapi : RandApi) (st : GameState) (r : RandState) :
    GameAtom → Except StepError (GameState × RandState)
  | .startGame =>
    if st.game_stage = GameStage.gameRunning then
      .error (.err .gameAlreadyRunning)
    else
      .ok ({ st with game_stage := .gameRunning }, r)
  | .dealDamage _amount _source target =>
    match target with
    | .player _ply => .error (.panic "todo: Do something with health")
    | .object _ => .error (.panic "todo")
  | .keepHand player =>
    match st.game_stage with
    | .keepHand players_keeping =>
      .ok ({ st with game_stage := .keepHand (setInsert players_keeping player) }, r)
    | .gameRunning => .error (.err .keepHandDuringGame)
  | .shuffleHandIntoLibrary player =>
    match zonesGet st.zones (.hand player), zonesGet st.zones (.library player) with
    | some hand, some library =>
      let shuffled := rapi.shuffle_objects r (library.objects ++ hand.objects)
      let zs := zonesSet (zonesSet st.zones (.hand player) GameZone.empty)
        (.library player) ⟨shuffled.1⟩
      .ok ({ st with zones := zs }, shuffled.2)
    | _, _ => .error (.panic "unreachable: get_many_mut")
  | .drawCards player count =>
    match zonesGet st.zones (.hand player), zonesGet st.zones (.library player) with
    | some hand, some library =>
      let new_count := library.objects.length - count
      let zs := zonesSet
        (zonesSet st.zones (.hand player) ⟨hand.objects ++ library.objects.drop new_count⟩)
        (.library player) ⟨library.objects.take new_count⟩
      .ok ({ st with zones := zs }, r)
    | _, _ => .error (.panic "unreachable: get_many_mut")
  | .passPriority player =>
    if st.unpassed_players.head? = some player then
      .ok ({ st with unpassed_players := st.unpassed_players.tail }, r)
    else
      .error (.err (.invalidPlayerPassing player))
  | .playerPlayCard player zfrom object choices =>
    if zfrom = ZoneId.stack then .error (.panic "unreachable: get_many_mut aliasing")
    else
      match zonesGet st.zones zfrom, zonesGet st.zones .stack with
      | some fromZone, some stackZone =>
        match removeFirstById fromZone.objects object with
        | some objRest =>
          let obj2 := { objRest.1 with choices := choices, controller := some player }
          let zs := zonesSet (zonesSet st.zones zfrom ⟨objRest.2⟩)
            .stack ⟨stackZone.objects ++ [obj2]⟩
          .ok ({ st with zones := zs }, r)
        | none => .error (.err (.objectNotFoundInZone zfrom object))
      | _, _ => .error (.panic "unreachable: get_many_mut")
  | .resetPriority =>
    .ok ({ st with unpassed_players := st.active_player_order }, r)
  | .popStack =>
    match zonesGet st.zones .stack with
    | some stackZone =>
      .ok ({ st with zones := zonesSet st.zones .stack ⟨stackZone.objects.dropLast⟩ }, r)
    | none => .error (.panic "unwrap: missing stack zone")

/-- The left-to-right fold of the `for atom in atoms` loop of
`GameImplV1::apply_atoms`, threading the successor state and the RNG.
On the first failing atom it stops and also reports the RNG state reached so
far (shuffles of earlier atoms have already advanced `self.game.rand`). -/
def foldAtoms (rapi : RandApi) :
    GameState → RandState → List GameAtom →
    Except (StepError × RandState) (GameState × RandState)
  | st, r, [] => .ok (st, r)
  | st, r, a :: rest =>
    match apply_atom rapi st r a with
    | .ok str2 => foldAtoms rapi str2.1 str2.2 rest
    | .error e => .error (e, r)

/-- `core::card::Cost`. -/
structure Cost where
  corp1_scrip : Nat := 0
  corp2_scrip : Nat := 0
  corp3_scrip : Nat := 0
  corp4_scrip : Nat := 0
  corp5_scrip : Nat := 0
  any_scrip : Nat := 0
deriving DecidableEq, Repr

/-- `core::card::AgentSubKind`. -/
inductive AgentSubKind
  | mercenary
deriving DecidableEq, Repr

/-- `core::card::AgentPower`. -/
inductive AgentPower
  | fixed (n : Nat)
  | special
deriving DecidableEq, Repr

/-- `core::card::AgentToughness`. -/
inductive AgentToughness
  | fixed (n : Nat)
  | special
deriving DecidableEq, Repr

/-- `core::card::BaseCardKind` (`BuildingSubKind` is an empty enum, so the
`building` variant carries nothing constructible and is omitted together with
it; no claim concerns card kinds). -/
inductive BaseCardKind
  | agent (subkind : AgentSubKind) (power : AgentPower) (toughness : AgentToughness)
  | quickhack
  | program
deriving DecidableEq, Repr

/-- `core::card::CardKind`. -/
structure CardKind where
  kind : BaseCardKind
deriving DecidableEq, Repr

/-- `core::effect::EffectTrigger`. -/
inductive EffectTrigger
  | onResolve
  | onPlay
  | onDraw
deriving DecidableEq, Repr

/-- `core::effect::EffectInfoRequest`. -/
inductive EffectInfoRequest
  | singleTarget (restriction : Option Unit)
deriving DecidableEq, Repr

/-- The read-only view of the game an instant effect handler may consult
during `execute`. The source passes `&Game`; the handlers shipped with the
engine read only the latest game state through `Game::get_controller_of`, and
passing the zones of the latest state breaks the type-level cycle between
`Card` and `Game`. -/
structure GameView where
  zones : List (ZoneId × GameZone)

/-- `core::Game::get_controller_of`: search the battlefield then the stack for
the object and return its controller. -/
def GameView.get_controller_of (v : GameView) (object : ObjectId) : Option PlayerId :=
  match ((zonesGet v.zones .battlefield).getD GameZone.empty).objects ++
      ((zonesGet v.zones .stack).getD GameZone.empty).objects |>.find? (fun o => o.id = object) with
  | none => none
  | some obj => obj.controller

/-- `core::effect::InstantEffect`: the trait object, modelled as a record of
its two operations (`get_required_info` returns a `HashMap`, modelled as an
association list). -/
structure InstantEffect where
  get_required_info : List (String × EffectInfoRequest)
  execute : List (String × EffectInfo) → ObjectId → GameView →
    Except ExecuteFailure (List GameAtom)

/-- `core::effect::ContinuousEffect` is an empty enum. -/
inductive ContinuousEffect

/-- `core::effect::Effect`. -/
inductive Effect
  | instant (e : InstantEffect)
  | continuous (e : ContinuousEffect)

/-- `core::card::TriggeredCardEffect`. -/
structure TriggeredCardEffect where
  trigger : EffectTrigger
  effects : List Effect

/-- `core::card::ActivatedCardEffect`. -/
structure ActivatedCardEffect where
  cost : Cost
  effect : List Effect

/-- `core::card::StaticCardEffect`. -/
structure StaticCardEffect where
  effect : Effect

/-- `core::card::CardEffect`. -/
inductive CardEffect
  | triggered (e : TriggeredCardEffect)
  | activated (e : ActivatedCardEffect)
  | static (e : StaticCardEffect)

/-- `core::card::CardBehaviour`. -/
structure CardBehaviour where
  cost : Option Cost
  kind : List CardKind
  effects : List CardEffect

/-- `core::card::Card`. -/
structure Card where
  id : CardId
  behaviour : CardBehaviour

/-- `core::Game`: the per-game root. `cards` and `players` are hash maps in
the source, modelled as association lists. -/
structure Game where
  cards : List (CardId × Card)
  id : Nat
  players : List (PlayerId × Player)
  rand : RandState
  game_states : List GameState
  history : List (Nat × List GameAtom)

/-- First-match lookup in the card database (`HashMap::get`). -/
def cardsGet : List (CardId × Card) → CardId → Option Card
  | [], _ => none
  | (k, v) :: rest, c => if k = c then some v else cardsGet rest c

/-- The state used when `game_states` is empty; the source `unwrap`s there,
but `game_states` is never empty by construction. -/
def emptyGameState : GameState :=
  { zones := [], active_player_order := [], unpassed_players := [],
    game_stage := .keepHand [] }

/-- `Game::latest_gamestate`. -/
def Game.latest_gamestate (g : Game) : GameState :=
  g.game_states.getLast?.getD emptyGameState

/-- The view handed to effect handlers (they receive `&Game` in the source and
read the latest state). -/
def Game.view (g : Game) : GameView := ⟨g.latest_gamestate.zones⟩

/-- `GameImplV1::apply_atoms`. The source first appends
`(game_states.len() - 1, atoms)` to the history, then folds the atoms over a
clone of the latest state, pushing the successor state only if every atom
succeeded. On an error the mutations already made to `self.game` (the history
entry and any RNG advance from shuffles) remain; the error is returned
alongside. -/
def apply_atoms (rapi : RandApi) (g : Game) (atoms : List GameAtom) :
    Game × Option StepError :=
  let g1 : Game := { g with history := g.history ++ [(g.game_states.length - 1, atoms)] }
  match foldAtoms rapi g.latest_gamestate g.rand atoms with
  | .ok str => ({ g1 with game_states := g1.game_states ++ [str.1], rand := str.2 }, none)
  | .error er => ({ g1 with rand := er.2 }, some er.1)

/-- `core::GameObject::from_card`: a fresh object in no zone, with no
controller and no choices; draws the object id and then the library card id
from the RNG. -/
def GameObject.from_card (rapi : RandApi) (r : RandState) (underlying : CardId) :
    GameObject × RandState :=
  let oid := rapi.draw_uuid r
  let lid := rapi.draw_uuid oid.2
  ({ id := oid.1, library_card_id := some lid.1, underlying_card := some underlying,
     controller := none, choices := [] }, lid.2)

/-- Instantiating each of a player's initial cards into library objects,
threading the RNG (the `map` inside `new_game_state_with`). -/
def fromCards (rapi : RandApi) : RandState → List CardId → List GameObject × RandState
  | r, [] => ([], r)
  | r, c :: rest =>
    let obj := GameObject.from_card rapi r c
    let objs := fromCards rapi obj.2 rest
    (obj.1 :: objs.1, objs.2)

/-- The per-player zone triples built by `new_game_state_with`
(hand empty, library seeded from the initial cards, discard empty). -/
def playerZones (rapi : RandApi) : RandState → List Player → List (ZoneId × GameZone) × RandState
  | r, [] => ([], r)
  | r, p :: rest =>
    let objs := fromCards rapi r p.initial_cards
    let zs := playerZones rapi objs.2 rest
    ([(.hand p.id, GameZone.empty), (.library p.id, ⟨objs.1⟩), (.discard p.id, GameZone.empty)]
      ++ zs.1, zs.2)

/-- `new_game_state_with`: the initial game state (keep-hand stage, empty set
of keeping players, both player lists set to `order`, per-player zones plus
battlefield and stack). -/
def new_game_state_with (rapi : RandApi) (r : RandState) (players : List Player)
    (order : List PlayerId) : GameState × RandState :=
  let zs := playerZones rapi r players
  ({ game_stage := .keepHand [],
     active_player_order := order,
     unpassed_players := order,
     zones := zs.1 ++ [(.battlefield, GameZone.empty), (.stack, GameZone.empty)] }, zs.2)

/-- `PlayerAction`. -/
inductive PlayerAction
  | playCard (zfrom : ZoneId) (object : ObjectId)
  | passPriority
deriving DecidableEq, Repr

/-- Deterministic model of the outside oracle: the four answer functions of
the `Outside` RPC service (transport failures are not modelled). -/
structure OutsideAnswers where
  get_player_keeping : List PlayerId → List PlayerId
  get_next_player_action_from : PlayerId → List PlayerAction → Nat
  get_target_choices_from_given : PlayerId → ObjectId → String → List TargetId → Nat → List Nat
  get_player_passing : PlayerId → Bool

/-- The enumeration of a card's on-resolve effect handlers: filter the card's
effects to the triggered ones with trigger `OnResolve`, flatten their handler
lists and enumerate with a per-card sequential index (used identically in the
resolution branch and in the card-play subroutine of `GameImplV1::run`). -/
def onResolveEffects (card : Card) : List (Nat × Effect) :=
  ((card.behaviour.effects.filterMap fun e =>
    match e with
    | .triggered te =>
      match te.trigger with
      | .onResolve => some te.effects
      | _ => none
    | _ => none).flatten).enum

/-- The info handed to the handler with index `idx` during resolution: the
object's choices entries whose first key component equals `idx`, with that
component dropped. -/
def handlerInfo (choices : Choices) (idx : Nat) : List (String × EffectInfo) :=
  (choices.filter fun e => e.1.1 = idx).map fun e => (e.1.2, e.2)

/-- The `for (idx, effect) in resolve_effects` loop of the resolution branch:
execute each instant handler on its filtered info and concatenate the returned
atom lists, failing on the first handler failure. -/
def collectResolveAtoms (view : GameView) (oid : ObjectId) (choices : Choices) :
    List (Nat × Effect) → Except ExecuteFailure (List GameAtom)
  | [] => .ok []
  | ie :: rest =>
    match ie.2 with
    | .instant e =>
      match e.execute (handlerInfo choices ie.1) oid view with
      | .error f => .error f
      | .ok atoms => (collectResolveAtoms view oid choices rest).map (fun l => atoms ++ l)
    | .continuous _ => collectResolveAtoms view oid choices rest

/-- The resolution branch of `GameImplV1::run` (all players passed, non-empty
stack, `top_item` the last stack object). -/
def runResolve (rapi : RandApi) (g : Game) (top_item : GameObject) : Game × Option StepError :=
  match top_item.underlying_card with
  | none => (g, some (.err (.noUnderlyingCard top_item.id)))
  | some cid =>
    match cardsGet g.cards cid with
    | none => (g, some (.err (.cardNotFound cid)))
    | some card =>
      match collectResolveAtoms g.view top_item.id top_item.choices (onResolveEffects card) with
      | .error f => (g, some (.err (.effectExecuteFailure f)))
      | .ok atoms => apply_atoms rapi g (atoms ++ [.popStack, .resetPriority])

/-- The per-player mulligan atoms of the keep-hand step, determined by the
player's hand size (the `match hand.objects.len()` inside
`GameImplV1::run`). -/
def keepHandAtomsFor (p : PlayerId) : Nat → List GameAtom
  | 1 => [.shuffleHandIntoLibrary p, .keepHand p]
  | 0 => [.drawCards p 7]
  | count => [.shuffleHandIntoLibrary p, .drawCards p (count - 1)]

/-- The first atom batch of the keep-hand step: for every player not yet
keeping, the hand-size-determined mulligan atoms. -/
def mulliganAtoms (g : Game) (players_keeping : List PlayerId) : List GameAtom :=
  ((g.players.map fun pp => pp.1).filter fun p => ¬ p ∈ players_keeping).flatMap
    fun p => keepHandAtomsFor p (g.latest_gamestate.get_hand p).objects.length

/-- The keep-hand branch of `GameImplV1::run`. -/
def runKeepHand (rapi : RandApi) (ans : OutsideAnswers) (g : Game)
    (players_keeping : List PlayerId) : Game × Option StepError :=
  match apply_atoms rapi g (mulliganAtoms g players_keeping) with
  | (g2, some e) => (g2, some e)
  | (g1, none) =>
    match g1.latest_gamestate.game_stage with
    | .gameRunning => (g1, some (.panic "unreachable: stage left keep-hand"))
    | .keepHand ks1 =>
      let not_kept := (g1.players.map fun pp => pp.1).filter fun p => ¬ p ∈ ks1
      let keeping := ans.get_player_keeping not_kept
      match apply_atoms rapi g1 (keeping.map fun p => GameAtom.keepHand p) with
      | (g3, some e) => (g3, some e)
      | (g2, none) =>
        match g2.latest_gamestate.game_stage with
        | .gameRunning => (g2, some (.panic "unreachable: stage left keep-hand"))
        | .keepHand ks2 =>
          if ks2.length = g2.players.length then
            apply_atoms rapi g2 [.startGame]
          else
            (g2, none)

/-- The candidate target list for an unrestricted single-target request: all
players, then the battlefield objects passing the restriction filter — whose
closure body is `todo!()` in the source, so a non-empty battlefield panics. -/
def possibleTargets (g : Game) : Except StepError (List TargetId) :=
  let base := g.players.map fun pp => TargetId.player pp.1
  match g.latest_gamestate.get_battlefield.objects with
  | [] => .ok base
  | _ :: _ => .error (.panic "todo: battlefield target restriction")

/-- The `filter_map` selecting the answered indices out of the candidate
list (`possible_choices.into_iter().enumerate().filter_map(...)`). -/
def selectedChoicesOf (possible : List TargetId) (choices : List Nat) : List TargetId :=
  possible.enum.filterMap fun ic => if ic.1 ∈ choices then some ic.2 else none

/-- Soliciting one unrestricted single-target decision: ask the outside for
exactly one index, error `InvalidChoiceAmount` when the answer does not have
length 1, then index the filtered selection — `selected_choices[0]`, which
panics when the selection is empty. -/
def gatherSingleTarget (ans : OutsideAnswers) (active : PlayerId) (object : ObjectId)
    (name : String) (possible : List TargetId) : Except StepError EffectInfo :=
  let choices := ans.get_target_choices_from_given active object name possible 1
  if choices.length ≠ 1 then
    .error (.err (.invalidChoiceAmount 1 choices.length))
  else
    match selectedChoicesOf possible choices with
    | [] => .error (.panic "index out of bounds: selected_choices[0]")
    | c :: _ => .ok (.singleTarget c)

/-- `HashMap::insert` on the gathered-info map. -/
def choicesInsert (m : Choices) (k : Nat × String) (v : EffectInfo) : Choices :=
  (m.filter fun e => ¬ e.1 = k) ++ [(k, v)]

/-- The inner loop of choice gathering: one handler's required info requests,
in declaration order. -/
def gatherForHandler (ans : OutsideAnswers) (g : Game) (active : PlayerId) (object : ObjectId)
    (idx : Nat) : List (String × EffectInfoRequest) → Choices → Except StepError Choices
  | [], acc => .ok acc
  | nq :: rest, acc =>
    match nq.2 with
    | .singleTarget restriction =>
      match restriction with
      | some _ => .error (.panic "todo: restricted targets")
      | none =>
        match possibleTargets g with
        | .error e => .error e
        | .ok possible =>
          match gatherSingleTarget ans active object nq.1 possible with
          | .error e => .error e
          | .ok info => gatherForHandler ans g active object idx rest
              (choicesInsert acc (idx, nq.1) info)

/-- The outer loop of choice gathering over the enumerated on-resolve
handlers; a continuous handler is an `InvalidCardState` error. -/
def gatherInfo (ans : OutsideAnswers) (g : Game) (active : PlayerId) (object : ObjectId) :
    List (Nat × Effect) → Choices → Except StepError Choices
  | [], acc => .ok acc
  | ie :: rest, acc =>
    match ie.2 with
    | .continuous _ => .error (.err .invalidCardState)
    | .instant inst =>
      match gatherForHandler ans g active object ie.1 inst.get_required_info acc with
      | .error e => .error e
      | .ok acc2 => gatherInfo ans g active object rest acc2

/-- The atom batch committed by the card-play subroutine: `PlayerPlayCard`
followed by a `PassPriority` for the active player exactly when they elected
to pass. -/
def playCardBatch (active : PlayerId) (zfrom : ZoneId) (object : ObjectId)
    (gathered : Choices) (passing : Bool) : List GameAtom :=
  [.playerPlayCard active zfrom object gathered] ++
    (if passing then [.passPriority active] else [])

/-- The card-play subroutine of `GameImplV1::run` (§ "PlayerAction::PlayCard").
Note the source takes the active player from `active_player_order.first()`
here, not from `unpassed_players`. -/
def playCardSub (rapi : RandApi) (ans : OutsideAnswers) (g : Game) (zfrom : ZoneId)
    (object : ObjectId) : Game × Option StepError :=
  match g.latest_gamestate.active_player_order with
  | [] => (g, some (.panic "unwrap: empty active_player_order"))
  | active :: _ =>
    match g.latest_gamestate.get_object_from_zone zfrom object with
    | none => (g, some (.err (.objectNotFoundInZone zfrom object)))
    | some obj =>
      match obj.underlying_card with
      | none => (g, some (.err (.noUnderlyingCard object)))
      | some cid =>
        match cardsGet g.cards cid with
        | none => (g, some (.err (.cardNotFound cid)))
        | some card =>
          match gatherInfo ans g active object (onResolveEffects card) [] with
          | .error e => (g, some e)
          | .ok gathered =>
            let passing := ans.get_player_passing active
            apply_atoms rapi g (playCardBatch active zfrom object gathered passing)

/-- The priority branch of `GameImplV1::run` (`unpassed_players` non-empty,
`active` its head): offer `PassPriority` plus one `PlayCard` per object of the
active player's hand, validate the chosen index, dispatch. -/
def runPriority (rapi : RandApi) (ans : OutsideAnswers) (g : Game) (active : PlayerId) :
    Game × Option StepError :=
  let possible_actions := PlayerAction.passPriority ::
    ((g.latest_gamestate.get_hand active).objects.map fun o => PlayerAction.playCard (.hand active) o.id)
  let action_idx := ans.get_next_player_action_from active possible_actions
  match possible_actions.get? action_idx with
  | none => (g, some (.err (.invalidAction possible_actions.length action_idx)))
  | some .passPriority => apply_atoms rapi g [.passPriority active]
  | some (.playCard zf obj) => playCardSub rapi ans g zf obj

/-- `GameImplV1::run`: one step of the game state machine, dispatching on the
latest state's stage; in the running stage, on whether all players have
passed, and then on the stack being non-empty. -/
def run (rapi : RandApi) (ans : OutsideAnswers) (g : Game) : Game × Option StepError :=
  match g.latest_gamestate.game_stage with
  | .keepHand ks => runKeepHand rapi ans g ks
  | .gameRunning =>
    match g.latest_gamestate.unpassed_players with
    | [] =>
      match g.latest_gamestate.get_stack.objects.getLast? with
      | some top_item => runResolve rapi g top_item
      | none => (g, some (.panic "todo: pass phases/turns"))
    | active :: _ => runPriority rapi ans g active

/-- `HashMap::get` on an effect's info map. -/
def infoGet : List (String × EffectInfo) → String → Option EffectInfo
  | [], _ => none
  | (k, v) :: rest, n => if k = n then some v else infoGet rest n

/-- The `DealDamage(amount)` instant effect of
`technomancy_engine/src/effect.rs`: requires one unrestricted single target
named "target" and emits one `DealDamage` atom at it. -/
def dealDamageEffect (amount : Nat) : InstantEffect where
  get_required_info := [("target", .singleTarget none)]
  execute info source _view :=
    match infoGet info "target" with
    | some (.singleTarget target) => .ok [.dealDamage amount source target]
    | none => .error (.invalidEffectInfo "target")

/-- The `DrawCards(count)` instant effect of
`technomancy_engine/src/effect.rs`: no required info; looks up the source's
controller in the game view and emits one `DrawCards` atom for it. -/
def drawCardsEffect (count : Nat) : InstantEffect where
  get_required_info := []
  execute _info source view :=
    match view.get_controller_of source with
    | some ply => .ok [.drawCards ply count]
    | none => .error .noControllerFound

/-- The controller rule of the specification for one object in one zone:
none in hand/library/discard, some on stack/battlefield. -/
def ZoneControllerOk (z : ZoneId) (o : GameObject) : Prop :=
  match z with
  | .hand _ => o.controller = none
  | .library _ => o.controller = none
  | .discard _ => o.controller = none
  | .battlefield => o.controller.isSome = true
  | .stack => o.controller.isSome = true

/-- The controller rule over a zone association list: every object of every
zone obeys the rule of its zone. -/
def ZonesOk (zs : List (ZoneId × GameZone)) : Prop :=
  ∀ zz ∈ zs, ∀ o ∈ zz.2.objects, ZoneControllerOk zz.1 o

/-- The controller invariant over a whole state. -/
def ControllerOk (st : GameState) : Prop :=
  ZonesOk st.zones

/-- States reachable from some initial game state by successfully applied
atoms (every state a successful `apply_atoms` batch ever commits is obtained
by such a chain of single successful atoms). -/
inductive Reachable (rapi : RandApi) : GameState × RandState → Prop
  | init (r : RandState) (players : List Player) (order : List PlayerId) :
      Reachable rapi (new_game_state_with rapi r players order)
  | step (p : GameState × RandState) (a : GameAtom) (p2 : GameState × RandState) :
      Reachable rapi p → apply_atom rapi p.1 p.2 a = .ok p2 → Reachable rapi p2

/-- Games reachable from a game `g0` by successful `apply_atoms` calls (what a
sequence of error-free `run` steps performs on `self.game`). -/
inductive GameReachable (rapi : RandApi) (g0 : Game) : Game → Prop
  | refl : GameReachable rapi g0 g0
  | step (g : Game) (atoms : List GameAtom) (g2 : Game) :
      GameReachable rapi g0 g → apply_atoms rapi g atoms = (g2, none) →
      GameReachable rapi g0 g2

/-- Replaying a recorded history log: apply each recorded atom batch in order
via `apply_atoms`, stopping at the first error. -/
def replayBatches (rapi : RandApi) : Game → List (Nat × List GameAtom) → Game × Option StepError
  | g, [] => (g, none)
  | g, b :: rest =>
    match apply_atoms rapi g b.2 with
    | (g2, none) => replayBatches rapi g2 rest
    | (g2, some e) => (g2, some e)

/-- The game produced by a successful `apply_atoms` call: history entry
appended, the fold's successor state pushed, the fold's RNG state stored. -/
def commitGame (g : Game) (atoms : List GameAtom) (str : GameState × RandState) : Game :=
  { g with
    history := g.history ++ [(g.game_states.length - 1, atoms)]
    game_states := g.game_states ++ [str.1]
    rand := str.2 }

/-- A trivial concrete instantiation of the abstract RNG interface (identity
shuffle, counter draws), used to evaluate the model on concrete games. -/
def rapi0 : RandApi where
  draw_uuid := fun r => (r, r + 1)
  shuffle_objects := fun r l => (l, r)

/-- A minimal concrete game (no players, no cards), freshly constructed, in
keep-hand stage. -/
def g0c : Game where
  cards := []
  id := 0
  players := []
  rand := 0
  game_states := [(new_game_state_with rapi0 0 [] []).1]
  history := []

/-- A concrete library object used to evaluate `DrawCards`. -/
def obj7a : GameObject where
  id := 11
  library_card_id := some 21
  underlying_card := some 5
  controller := none
  choices := []

/-- A second concrete library object. -/
def obj7b : GameObject where
  id := 12
  library_card_id := some 22
  underlying_card := some 5
  controller := none
  choices := []

/-- A concrete state with one player's hand and library, used to evaluate
`DrawCards`. -/
def st7c : GameState where
  zones := [(.hand 0, ⟨[]⟩), (.library 0, ⟨[obj7a, obj7b]⟩)]
  active_player_order := [0]
  unpassed_players := [0]
  game_stage := .gameRunning

/-- A concrete outside oracle answering every target-choice request with the
single out-of-range index 5. -/
def ans10 : OutsideAnswers where
  get_player_keeping := fun ps => ps
  get_next_player_action_from := fun _ _ => 0
  get_target_choices_from_given := fun _ _ _ _ _ => [5]
  get_player_passing := fun _ => false

/-- A concrete running state with two unpassed players. -/
def stc4 : GameState where
  zones := []
  active_player_order := [3, 4]
  unpassed_players := [3, 4]
  game_stage := .gameRunning

/-- `stc4` after player 3 passes priority. -/
def stc4r : GameState where
  zones := []
  active_player_order := [3, 4]
  unpassed_players := [4]
  game_stage := .gameRunning

/-- A concrete card whose single on-resolve handler deals 3 damage. -/
def card3c : Card where
  id := 5
  behaviour :=
    { cost := some {}, kind := [⟨.quickhack⟩],
      effects := [.triggered ⟨.onResolve, [.instant (dealDamageEffect 3)]⟩] }

/-- A concrete stack object of `card3c`, with a target already chosen for
handler 0. -/
def top3c : GameObject where
  id := 1
  library_card_id := some 31
  underlying_card := some 5
  controller := some 9
  choices := [((0, "target"), .singleTarget (.player 7))]

/-- A concrete running state whose players have all passed on a one-object
stack. -/
def st3c : GameState where
  zones := [(.stack, ⟨[top3c]⟩)]
  active_player_order := [9, 7]
  unpassed_players := []
  game_stage := .gameRunning

/-- The concrete game holding `st3c`. -/
def g3c : Game where
  cards := [(5, card3c)]
  id := 0
  players := [(9, ⟨9, []⟩), (7, ⟨7, []⟩)]
  rand := 0
  game_states := [st3c]
  history := []

theorem zonesGet_zonesSet (z z2 : ZoneId) (w : GameZone) :
    ∀ zs : List (ZoneId × GameZone),
      zonesGet (zonesSet zs z2 w) z =
        if z = z2 then (zonesGet zs z2).map (fun _ => w) else zonesGet zs z := by
  intro zs
  induction zs with
  | nil => by_cases h : z = z2 <;> simp [zonesGet, zonesSet, h]
  | cons hd tl ih =>
    obtain ⟨k, v⟩ := hd
    by_cases hk2 : k = z2
    · subst hk2
      by_cases hz : z = k
      · subst hz
        simp [zonesGet, zonesSet]
      · have hz2 : ¬ k = z := fun h => hz h.symm
        simp [zonesGet, zonesSet, hz, hz2]
    · by_cases hz : k = z
      · subst hz
        have hz2 : ¬ k = z2 := hk2
        simp [zonesGet, zonesSet, hk2, hz2]
      · simp [zonesGet, zonesSet, hk2, hz, ih]

theorem mem_zonesSet (z : ZoneId) (w : GameZone) (p : ZoneId × GameZone) :
    ∀ zs : List (ZoneId × GameZone), p ∈ zonesSet zs z w → p ∈ zs ∨ p = (z, w) := by
  intro zs
  induction zs with
  | nil => simp [zonesSet]
  | cons hd tl ih =>
    obtain ⟨k, v⟩ := hd
    intro h
    by_cases hk : k = z
    · subst hk
      rw [zonesSet, if_pos rfl] at h
      rcases List.mem_cons.mp h with h1 | h1
      · exact Or.inr h1
      · exact Or.inl (List.mem_cons_of_mem _ h1)
    · rw [zonesSet, if_neg hk] at h
      rcases List.mem_cons.mp h with h1 | h1
      · exact Or.inl (h1 ▸ List.mem_cons_self _ _)
      · rcases ih h1 with h2 | h2
        · exact Or.inl (List.mem_cons_of_mem _ h2)
        · exact Or.inr h2

theorem zonesGet_mem (z : ZoneId) (w : GameZone) :
    ∀ zs : List (ZoneId × GameZone), zonesGet zs z = some w → (z, w) ∈ zs := by
  intro zs
  induction zs with
  | nil => simp [zonesGet]
  | cons hd tl ih =>
    obtain ⟨k, v⟩ := hd
    by_cases hk : k = z
    · subst hk
      intro h
      have hv : v = w := by simpa [zonesGet] using h
      subst hv
      exact List.mem_cons_self _ _
    · intro h
      have h2 : zonesGet tl z = some w := by simpa [zonesGet, hk] using h
      exact List.mem_cons_of_mem _ (ih h2)

theorem removeFirstById_subset (oid : ObjectId) (o : GameObject) (rest : List GameObject) :
    ∀ l : List GameObject, removeFirstById l oid = some (o, rest) →
      o ∈ l ∧ ∀ x ∈ rest, x ∈ l := by
  intro l
  induction l generalizing o rest with
  | nil => simp [removeFirstById]
  | cons hd tl ih =>
    by_cases hid : hd.id = oid
    · simp only [removeFirstById, if_pos hid, Option.some.injEq, Prod.mk.injEq]
      rintro ⟨rfl, rfl⟩
      exact ⟨List.mem_cons_self _ _, fun x hx => List.mem_cons_of_mem _ hx⟩
    · simp only [removeFirstById, if_neg hid, Option.map_eq_some']
      intro h
      obtain ⟨p2, h2, h3⟩ := h
      obtain ⟨o2, rest2⟩ := p2
      simp only at h3
      cases h3
      obtain ⟨ho, hrest⟩ := ih _ _ h2
      refine ⟨List.mem_cons_of_mem _ ho, ?_⟩
      intro x hx
      rcases List.mem_cons.mp hx with hx1 | hx2
      · exact hx1 ▸ List.mem_cons_self _ _
      · exact List.mem_cons_of_mem _ (hrest x hx2)

theorem foldAtoms_first_error (rapi : RandApi) :
    ∀ (atoms : List GameAtom) (st : GameState) (r : RandState) (e : StepError) (r2 : RandState),
      foldAtoms rapi st r atoms = .error (e, r2) →
      ∃ i a str, atoms.get? i = some a ∧
        foldAtoms rapi st r (atoms.take i) = .ok str ∧
        apply_atom rapi str.1 str.2 a = .error e := by
  intro atoms
  induction atoms with
  | nil =>
    intro st r e r2 h
    simp [foldAtoms] at h
  | cons a rest ih =>
    intro st r e r2 h
    cases ha : apply_atom rapi st r a with
    | ok str2 =>
      simp only [foldAtoms, ha] at h
      obtain ⟨i, b, str, h1, h2, h3⟩ := ih str2.1 str2.2 e r2 h
      refine ⟨i + 1, b, str, by simpa using h1, ?_, h3⟩
      rw [List.take_succ_cons]
      simp only [foldAtoms, ha]
      exact h2
    | error e3 =>
      simp only [foldAtoms, ha, Except.error.injEq, Prod.mk.injEq] at h
      exact ⟨0, a, (st, r), rfl, rfl, by rw [ha, h.1]⟩

theorem apply_atoms_ok_parts (rapi : RandApi) (g : Game) (atoms : List GameAtom) (g2 : Game)
    (h : apply_atoms rapi g atoms = (g2, none)) :
    ∃ str, foldAtoms rapi g.latest_gamestate g.rand atoms = .ok str ∧
      g2 = commitGame g atoms str := by
  cases hf : foldAtoms rapi g.latest_gamestate g.rand atoms with
  | ok str =>
    refine ⟨str, rfl, ?_⟩
    simp only [apply_atoms, hf, Prod.mk.injEq] at h
    exact h.1.symm
  | error er =>
    simp [apply_atoms, hf] at h

theorem replayBatches_append (rapi : RandApi) (h2 : List (Nat × List GameAtom)) :
    ∀ (h1 : List (Nat × List GameAtom)) (g : Game),
      replayBatches rapi g (h1 ++ h2) =
        match replayBatches rapi g h1 with
        | (g1, none) => replayBatches rapi g1 h2
        | (g1, some e) => (g1, some e) := by
  intro h1
  induction h1 with
  | nil => intro g; simp [replayBatches]
  | cons b rest ih =>
    intro g
    rw [List.cons_append]
    cases hb : apply_atoms rapi g b.2 with
    | mk g1 res =>
      cases res with
      | none => simp only [replayBatches, hb]; exact ih g1
      | some e => simp only [replayBatches, hb]

/-- C1 — `apply_atoms` is atomic with respect to `game_states`: it folds the
batch left-to-right over a clone of the latest state; when every atom succeeds
exactly the fold's successor state is pushed (and becomes the latest state);
when some atom fails, the returned error is the error of the first failing
atom and `game_states` is unchanged, so the prior latest state remains
authoritative. -/
theorem apply_atoms_atomic_c1 (rapi : RandApi) (g : Game) (atoms : List GameAtom) :
    ((apply_atoms rapi g atoms).2 = none →
      ∃ str, foldAtoms rapi g.latest_gamestate g.rand atoms = .ok str ∧
        (apply_atoms rapi g atoms).1.game_states = g.game_states ++ [str.1] ∧
        (apply_atoms rapi g atoms).1.latest_gamestate = str.1) ∧
    (∀ e, (apply_atoms rapi g atoms).2 = some e →
      (apply_atoms rapi g atoms).1.game_states = g.game_states ∧
      ∃ i a str, atoms.get? i = some a ∧
        foldAtoms rapi g.latest_gamestate g.rand (atoms.take i) = .ok str ∧
        apply_atom rapi str.1 str.2 a = .error e) := by
  cases hf : foldAtoms rapi g.latest_gamestate g.rand atoms with
  | ok str =>
    constructor
    · intro _
      refine ⟨str, rfl, ?_, ?_⟩
      · simp [apply_atoms, hf]
      · simp only [apply_atoms, hf]
        simp [Game.latest_gamestate]
    · intro e he
      simp [apply_atoms, hf] at he
  | error er =>
    constructor
    · intro he
      simp [apply_atoms, hf] at he
    · intro e he
      have he2 : er.1 = e := by simpa [apply_atoms, hf] using he
      refine ⟨by simp [apply_atoms, hf], ?_⟩
      exact he2 ▸ foldAtoms_first_error rapi atoms _ _ er.1 er.2 (by rw [hf])

/-- Witness for C1 at a concrete failing batch. -/
theorem apply_atoms_atomic_c1_witness :
    ((apply_atoms rapi0 g0c [.startGame, .startGame]).2 = some (.err .gameAlreadyRunning)) ∧
    ((apply_atoms rapi0 g0c [.startGame, .startGame]).1.game_states = g0c.game_states ∧
      ∃ i a str, ([GameAtom.startGame, GameAtom.startGame].get? i) = some a ∧
        foldAtoms rapi0 g0c.latest_gamestate g0c.rand
          ([GameAtom.startGame, GameAtom.startGame].take i) = .ok str ∧
        apply_atom rapi0 str.1 str.2 a = .error (.err .gameAlreadyRunning)) :=
  ⟨by decide, (apply_atoms_atomic_c1 rapi0 g0c [.startGame, .startGame]).2
    (.err .gameAlreadyRunning) (by decide)⟩

/-- C2 counterexample: on a failing batch (`StartGame` twice from the initial
keep-hand state) `apply_atoms` appends the history entry but pushes no state,
so afterwards `game_states.len() = history.len() + 1` does NOT hold: the
history entry was recorded although the batch was not committed. -/
theorem history_invariant_c2_counterexample :
    (apply_atoms rapi0 g0c [.startGame, .startGame]).2 = some (.err .gameAlreadyRunning) ∧
    ¬ (apply_atoms rapi0 g0c [.startGame, .startGame]).1.game_states.length =
      (apply_atoms rapi0 g0c [.startGame, .startGame]).1.history.length + 1 := by
  decide

/-- C2 (amended) — `apply_atoms` appends the `(prior_state_index, atoms)`
entry to the history log on EVERY call, before applying the batch; therefore
the invariant `game_states.len() = history.len() + 1` is preserved exactly by
the calls that return Ok, while after a call that returns an error
`game_states.len() = history.len()` holds instead. -/
theorem history_invariant_c2_amended (rapi : RandApi) (g : Game) (atoms : List GameAtom)
    (h : g.game_states.length = g.history.length + 1) :
    ((apply_atoms rapi g atoms).1.history =
      g.history ++ [(g.game_states.length - 1, atoms)]) ∧
    ((apply_atoms rapi g atoms).2 = none →
      (apply_atoms rapi g atoms).1.game_states.length =
        (apply_atoms rapi g atoms).1.history.length + 1) ∧
    ((apply_atoms rapi g atoms).2 ≠ none →
      (apply_atoms rapi g atoms).1.game_states.length =
        (apply_atoms rapi g atoms).1.history.length) := by
  cases hf : foldAtoms rapi g.latest_gamestate g.rand atoms with
  | ok str =>
    refine ⟨by simp [apply_atoms, hf], ?_, ?_⟩
    · intro _
      simp only [apply_atoms, hf]
      simp only [List.length_append, List.length_singleton]
      omega
    · intro hne
      simp [apply_atoms, hf] at hne
  | error er =>
    refine ⟨by simp [apply_atoms, hf], ?_, ?_⟩
    · intro hne
      simp [apply_atoms, hf] at hne
    · intro _
      simp only [apply_atoms, hf]
      simp only [List.length_append, List.length_singleton]
      omega

/-- Witness for the amended C2 at a concrete failing batch. -/
theorem history_invariant_c2_amended_witness :
    (g0c.game_states.length = g0c.history.length + 1) ∧
    (((apply_atoms rapi0 g0c [.startGame, .startGame]).1.history =
      g0c.history ++ [(g0c.game_states.length - 1, [.startGame, .startGame])]) ∧
    ((apply_atoms rapi0 g0c [.startGame, .startGame]).2 = none →
      (apply_atoms rapi0 g0c [.startGame, .startGame]).1.game_states.length =
        (apply_atoms rapi0 g0c [.startGame, .startGame]).1.history.length + 1) ∧
    ((apply_atoms rapi0 g0c [.startGame, .startGame]).2 ≠ none →
      (apply_atoms rapi0 g0c [.startGame, .startGame]).1.game_states.length =
        (apply_atoms rapi0 g0c [.startGame, .startGame]).1.history.length)) :=
  ⟨by decide, history_invariant_c2_amended rapi0 g0c [.startGame, .startGame] (by decide)⟩

theorem apply_atoms_ok_history (rapi : RandApi) (g : Game) (atoms : List GameAtom) (g2 : Game)
    (h : apply_atoms rapi g atoms = (g2, none)) :
    g2.history = g.history ++ [(g.game_states.length - 1, atoms)] := by
  obtain ⟨str, hf, rfl⟩ := apply_atoms_ok_parts rapi g atoms g2 h
  rfl

/-- C9 — for every game reached from an initial game (empty history log) by
successful `apply_atoms` calls (which is what error-free `run` steps perform),
replaying the recorded history from that initial game — applying each recorded
atom batch in order via `apply_atoms`, starting again from `game_states[0]`
and the initial RNG state — reconstructs the whole final game, in particular
its latest state, byte for byte. -/
theorem apply_atoms_error_history (rapi : RandApi) (g : Game) (atoms : List GameAtom)
    (g2 : Game) (e : StepError) (h : apply_atoms rapi g atoms = (g2, some e)) :
    g2.history = g.history ++ [(g.game_states.length - 1, atoms)] := by
  cases hf : foldAtoms rapi g.latest_gamestate g.rand atoms with
  | ok str =>
    simp [apply_atoms, hf] at h
  | error er =>
    simp only [apply_atoms, hf, Prod.mk.injEq] at h
    rw [← h.1]

theorem replay_reconstructs_c9 (rapi : RandApi) (g0 g : Game)
    (hinit : g0.history = []) (hreach : GameReachable rapi g0 g) :
    (replayBatches rapi g0 g.history = (g, none) ∧
      (replayBatches rapi g0 g.history).1.latest_gamestate = g.latest_gamestate) ∧
    (∀ (atoms : List GameAtom) (g2 : Game) (e : StepError),
      apply_atoms rapi g atoms = (g2, some e) →
      replayBatches rapi g0 g2.history = (g2, some e) ∧
      (replayBatches rapi g0 g2.history).1.latest_gamestate = g2.latest_gamestate) := by
  have main : replayBatches rapi g0 g.history = (g, none) := by
    induction hreach with
    | refl => rw [hinit]; rfl
    | step g1 atoms g2 hr hstep ih =>
      have hh : g2.history = g1.history ++ [(g1.game_states.length - 1, atoms)] :=
        apply_atoms_ok_history rapi g1 atoms g2 hstep
      rw [hh, replayBatches_append, ih]
      simp only [replayBatches, hstep]
  refine ⟨⟨main, by rw [main]⟩, ?_⟩
  intro atoms g2 e hstep
  have hh : g2.history = g.history ++ [(g.game_states.length - 1, atoms)] :=
    apply_atoms_error_history rapi g atoms g2 e hstep
  have hrep : replayBatches rapi g0 g2.history = (g2, some e) := by
    rw [hh, replayBatches_append, main]
    simp only [replayBatches, hstep]
  exact ⟨hrep, by rw [hrep]⟩

/-- Witness for C9: a one-batch game history replayed from the initial game. -/
theorem replay_reconstructs_c9_witness :
    (g0c.history = []) ∧
    ((replayBatches rapi0 g0c (apply_atoms rapi0 g0c [GameAtom.startGame]).1.history =
      ((apply_atoms rapi0 g0c [GameAtom.startGame]).1, none) ∧
    (replayBatches rapi0 g0c (apply_atoms rapi0 g0c [GameAtom.startGame]).1.history).1.latest_gamestate =
      (apply_atoms rapi0 g0c [GameAtom.startGame]).1.latest_gamestate) ∧
    (∀ (atoms : List GameAtom) (g2 : Game) (e : StepError),
      apply_atoms rapi0 (apply_atoms rapi0 g0c [GameAtom.startGame]).1 atoms = (g2, some e) →
      replayBatches rapi0 g0c g2.history = (g2, some e) ∧
      (replayBatches rapi0 g0c g2.history).1.latest_gamestate = g2.latest_gamestate)) :=
  ⟨rfl, replay_reconstructs_c9 rapi0 g0c (apply_atoms rapi0 g0c [GameAtom.startGame]).1 rfl
    (GameReachable.step g0c [GameAtom.startGame] (apply_atoms rapi0 g0c [GameAtom.startGame]).1
      GameReachable.refl (by rfl))⟩

/-- C5 — the keep-hand step's per-player mulligan atoms are determined solely
by that player's hand size: 0 draws 7; 1 shuffles the hand away and forces a
keep; n ≥ 2 shuffles the hand away and draws n − 1; and the step's first batch
is the concatenation of these over the players not yet keeping. -/
theorem mulligan_atoms_c5 (g : Game) (players_keeping : List PlayerId) (p : PlayerId) (n : Nat)
    (h2 : 2 ≤ n) :
    keepHandAtomsFor p 0 = [.drawCards p 7] ∧
    keepHandAtomsFor p 1 = [.shuffleHandIntoLibrary p, .keepHand p] ∧
    keepHandAtomsFor p n = [.shuffleHandIntoLibrary p, .drawCards p (n - 1)] ∧
    mulliganAtoms g players_keeping =
      ((g.players.map fun pp => pp.1).filter fun q => ¬ q ∈ players_keeping).flatMap
        (fun q => keepHandAtomsFor q (g.latest_gamestate.get_hand q).objects.length) := by
  obtain ⟨m, rfl⟩ : ∃ m, n = m + 2 := ⟨n - 2, by omega⟩
  exact ⟨rfl, rfl, rfl, rfl⟩

/-- Witness for C5 at hand size 5. -/
theorem mulligan_atoms_c5_witness :
    (2 ≤ 5) ∧
    (keepHandAtomsFor 0 0 = [.drawCards 0 7] ∧
    keepHandAtomsFor 0 1 = [.shuffleHandIntoLibrary 0, .keepHand 0] ∧
    keepHandAtomsFor 0 5 = [.shuffleHandIntoLibrary 0, .drawCards 0 (5 - 1)] ∧
    mulliganAtoms g0c [] =
      ((g0c.players.map fun pp => pp.1).filter fun q => ¬ q ∈ ([] : List PlayerId)).flatMap
        (fun q => keepHandAtomsFor q (g0c.latest_gamestate.get_hand q).objects.length)) :=
  ⟨by decide, mulligan_atoms_c5 g0c [] 0 5 (by decide)⟩

/-- C6 — the claim says `DealDamage` at a player target succeeds and reduces
that player's health; the code instead hits `todo!("Do something with health")`
and panics (`Player` has no health field at all), so the batch never commits. -/
theorem deal_damage_player_c6 (rapi : RandApi) (st : GameState) (r : RandState)
    (amount : Nat) (source : ObjectId) (ply : PlayerId) :
    apply_atom rapi st r (.dealDamage amount source (.player ply)) =
      .error (.panic "todo: Do something with health") := rfl

/-- C7 — `DrawCards{p, n}` moves exactly the top `min(n, library.len())`
objects (the tail of the library vector) to the end of the hand, preserving
their relative order, touching no other zone and never returning an error. -/
theorem draw_cards_c7 (rapi : RandApi) (st : GameState) (r : RandState) (p : PlayerId) (n : Nat)
    (hand lib : GameZone)
    (hh : zonesGet st.zones (.hand p) = some hand)
    (hl : zonesGet st.zones (.library p) = some lib) :
    ∃ (st2 : GameState) (remaining moved : List GameObject),
      lib.objects = remaining ++ moved ∧
      moved.length = min n lib.objects.length ∧
      apply_atom rapi st r (.drawCards p n) = .ok (st2, r) ∧
      zonesGet st2.zones (.hand p) = some ⟨hand.objects ++ moved⟩ ∧
      zonesGet st2.zones (.library p) = some ⟨remaining⟩ ∧
      (∀ z, z ≠ .hand p → z ≠ .library p → zonesGet st2.zones z = zonesGet st.zones z) ∧
      st2.unpassed_players = st.unpassed_players ∧
      st2.active_player_order = st.active_player_order ∧
      st2.game_stage = st.game_stage := by
  have hzs2 : ∃ zs2, zs2 = zonesSet
      (zonesSet st.zones (.hand p) ⟨hand.objects ++ lib.objects.drop (lib.objects.length - n)⟩)
      (.library p) ⟨lib.objects.take (lib.objects.length - n)⟩ := ⟨_, rfl⟩
  obtain ⟨zs2, hzs2⟩ := hzs2
  refine ⟨{ st with zones := zs2 }, lib.objects.take (lib.objects.length - n),
    lib.objects.drop (lib.objects.length - n),
    (List.take_append_drop _ _).symm, ?_, ?_, ?_, ?_, ?_, rfl, rfl, rfl⟩
  · rw [List.length_drop]
    omega
  · simp only [apply_atom, hh, hl, hzs2]
  · simp [hzs2, zonesGet_zonesSet, hh]
  · simp [hzs2, zonesGet_zonesSet, hl]
  · intro z hz1 hz2
    simp [hzs2, zonesGet_zonesSet, hz1, hz2]

/-- Witness for C7: drawing 7 from a 2-card library. -/
theorem draw_cards_c7_witness :
    (zonesGet st7c.zones (.hand 0) = some ⟨[]⟩ ∧
      zonesGet st7c.zones (.library 0) = some ⟨[obj7a, obj7b]⟩) ∧
    (∃ (st2 : GameState) (remaining moved : List GameObject),
      (GameZone.mk [obj7a, obj7b]).objects = remaining ++ moved ∧
      moved.length = min 7 (GameZone.mk [obj7a, obj7b]).objects.length ∧
      apply_atom rapi0 st7c 0 (.drawCards 0 7) = .ok (st2, 0) ∧
      zonesGet st2.zones (.hand 0) = some ⟨(GameZone.mk []).objects ++ moved⟩ ∧
      zonesGet st2.zones (.library 0) = some ⟨remaining⟩ ∧
      (∀ z, z ≠ .hand 0 → z ≠ .library 0 → zonesGet st2.zones z = zonesGet st7c.zones z) ∧
      st2.unpassed_players = st7c.unpassed_players ∧
      st2.active_player_order = st7c.active_player_order ∧
      st2.game_stage = st7c.game_stage) :=
  ⟨⟨by decide, by decide⟩,
    draw_cards_c7 rapi0 st7c 0 0 7 ⟨[]⟩ ⟨[obj7a, obj7b]⟩ (by decide) (by decide)⟩

theorem enumFrom_filterMap_single_out (k : Nat) :
    ∀ (l : List TargetId) (n : Nat), n + l.length ≤ k →
      (List.enumFrom n l).filterMap
        (fun ic => if ic.1 ∈ [k] then some ic.2 else none) = [] := by
  intro l
  induction l with
  | nil => intro n _; rfl
  | cons a rest ih =>
    intro n h
    have hn : ¬ n ∈ [k] := by
      simp only [List.mem_singleton, List.length_cons] at h ⊢
      omega
    simp only [List.enumFrom, List.filterMap, if_neg hn]
    exact ih (n + 1) (by simp only [List.length_cons] at h; omega)

/-- C10 — the target-gathering step validates only the NUMBER of returned
indices: for an answer consisting of exactly one index that is greater than or
equal to the number of offered candidates, the filtered selection is empty and
the subsequent `selected_choices[0]` indexing panics out of bounds instead of
returning a `GameError`. -/
theorem target_choice_out_of_range_c10 (ans : OutsideAnswers) (active : PlayerId)
    (object : ObjectId) (name : String) (possible : List TargetId) (k : Nat)
    (hans : ans.get_target_choices_from_given active object name possible 1 = [k])
    (hk : possible.length ≤ k) :
    selectedChoicesOf possible [k] = [] ∧
    gatherSingleTarget ans active object name possible =
      .error (.panic "index out of bounds: selected_choices[0]") := by
  have hsel : selectedChoicesOf possible [k] = [] := by
    unfold selectedChoicesOf
    have h := enumFrom_filterMap_single_out k possible 0 (by omega)
    simpa [List.enum] using h
  refine ⟨hsel, ?_⟩
  unfold gatherSingleTarget
  rw [hans]
  simp [hsel]

/-- Witness for C10: two player candidates offered, answer `[5]`. -/
theorem target_choice_out_of_range_c10_witness :
    (ans10.get_target_choices_from_given 0 1 "target" [.player 0, .player 1] 1 = [5] ∧
      ([TargetId.player 0, TargetId.player 1]).length ≤ 5) ∧
    (selectedChoicesOf [.player 0, .player 1] [5] = [] ∧
    gatherSingleTarget ans10 0 1 "target" [.player 0, .player 1] =
      .error (.panic "index out of bounds: selected_choices[0]")) :=
  ⟨⟨rfl, by decide⟩,
    target_choice_out_of_range_c10 ans10 0 1 "target" [.player 0, .player 1] 5 rfl (by decide)⟩

theorem keepHandAtomsFor_no_reset (p : PlayerId) (n : Nat) :
    GameAtom.resetPriority ∉ keepHandAtomsFor p n := by
  match n with
  | 0 => simp [keepHandAtomsFor]
  | 1 => simp [keepHandAtomsFor]
  | m + 2 => simp [keepHandAtomsFor]

/-- C4 — playing a card never resets priority: the card-play subroutine's
batch is `PlayerPlayCard` plus one `PassPriority` for the active player
exactly when they elected to pass, and contains no `ResetPriority`; neither do
the mulligan, keep-hand or pass batches; and of all atoms only
`ResetPriority` replaces `unpassed_players` with a copy of
`active_player_order` — every other successfully applied atom leaves
`unpassed_players` unchanged or merely drops its head. -/
theorem play_no_reset_c4 (rapi : RandApi) :
    (∀ (active : PlayerId) (zfrom : ZoneId) (object : ObjectId) (gathered : Choices)
        (passing : Bool),
      GameAtom.resetPriority ∉ playCardBatch active zfrom object gathered passing) ∧
    (∀ (active : PlayerId) (zfrom : ZoneId) (object : ObjectId) (gathered : Choices)
        (passing : Bool) (q : PlayerId),
      GameAtom.passPriority q ∈ playCardBatch active zfrom object gathered passing ↔
        passing = true ∧ q = active) ∧
    (∀ (p : PlayerId) (n : Nat), GameAtom.resetPriority ∉ keepHandAtomsFor p n) ∧
    (∀ (g : Game) (ks : List PlayerId), GameAtom.resetPriority ∉ mulliganAtoms g ks) ∧
    (∀ ps : List PlayerId, GameAtom.resetPriority ∉ ps.map fun q => GameAtom.keepHand q) ∧
    (∀ (st : GameState) (r : RandState) (a : GameAtom) (stp : GameState × RandState),
      apply_atom rapi st r a = .ok stp → a ≠ .resetPriority →
        stp.1.unpassed_players = st.unpassed_players ∨
        stp.1.unpassed_players = st.unpassed_players.tail) ∧
    (∀ (st : GameState) (r : RandState),
      apply_atom rapi st r .resetPriority =
        .ok ({ st with unpassed_players := st.active_player_order }, r)) := by
  refine ⟨?_, ?_, ?_, ?_, ?_, ?_, fun st r => rfl⟩
  · intro active zfrom object gathered passing
    cases passing <;> simp [playCardBatch]
  · intro active zfrom object gathered passing q
    cases passing <;> simp [playCardBatch]
  · exact keepHandAtomsFor_no_reset
  · intro g ks h
    rw [mulliganAtoms, List.mem_flatMap] at h
    obtain ⟨q, _, hq⟩ := h
    exact keepHandAtomsFor_no_reset q _ hq
  · intro ps h
    rw [List.mem_map] at h
    obtain ⟨q, _, hq⟩ := h
    cases hq
  · intro st r a stp hok hne
    cases a with
    | startGame =>
      simp only [apply_atom] at hok
      split at hok
      · cases hok
      · injection hok with h2
        subst h2
        exact Or.inl rfl
    | dealDamage amount source target =>
      simp only [apply_atom] at hok
      rcases target with ply | ob
      · cases hok
      · cases hok
    | keepHand player =>
      simp only [apply_atom] at hok
      split at hok
      · injection hok with h2
        subst h2
        exact Or.inl rfl
      · cases hok
    | shuffleHandIntoLibrary player =>
      simp only [apply_atom] at hok
      split at hok
      · injection hok with h2
        subst h2
        exact Or.inl rfl
      · cases hok
    | drawCards player count =>
      simp only [apply_atom] at hok
      split at hok
      · injection hok with h2
        subst h2
        exact Or.inl rfl
      · cases hok
    | passPriority player =>
      simp only [apply_atom] at hok
      split at hok
      · injection hok with h2
        subst h2
        exact Or.inr rfl
      · cases hok
    | playerPlayCard player zfrom object choices =>
      simp only [apply_atom] at hok
      split at hok
      · cases hok
      · split at hok
        · split at hok
          · injection hok with h2
            subst h2
            exact Or.inl rfl
          · cases hok
        · cases hok
    | resetPriority => exact absurd rfl hne
    | popStack =>
      simp only [apply_atom] at hok
      split at hok
      · injection hok with h2
        subst h2
        exact Or.inl rfl
      · cases hok

/-- Witness for C4: player 3 passing priority drops the head of
`unpassed_players` and does not copy `active_player_order`. -/
theorem play_no_reset_c4_witness :
    (apply_atom rapi0 stc4 0 (.passPriority 3) = .ok (stc4r, 0) ∧
      GameAtom.passPriority 3 ≠ GameAtom.resetPriority) ∧
    (stc4r.unpassed_players = stc4.unpassed_players ∨
      stc4r.unpassed_players = stc4.unpassed_players.tail) :=
  ⟨⟨rfl, by decide⟩,
    (play_no_reset_c4 rapi0).2.2.2.2.2.1 stc4 0 (.passPriority 3) (stc4r, 0)
      rfl (by decide)⟩

/-- C3 — a run step on a running state with `unpassed_players` empty and a
non-empty stack resolves the top stack object: it looks up the object's
underlying card, enumerates the card's on-resolve triggered handlers with a
per-card sequential index, hands each instant handler exactly the object's
choices entries whose first key component equals that handler's index (with
the component dropped), concatenates the handlers' atom lists in handler
order, appends `PopStack` then `ResetPriority`, and applies the whole batch in
a single `apply_atoms` call. -/
theorem resolve_top_c3 (rapi : RandApi) (ans : OutsideAnswers) (g : Game)
    (top : GameObject) (cid : CardId) (card : Card) (effAtoms : List GameAtom)
    (hstage : g.latest_gamestate.game_stage = .gameRunning)
    (hup : g.latest_gamestate.unpassed_players = [])
    (htop : g.latest_gamestate.get_stack.objects.getLast? = some top)
    (hcard : top.underlying_card = some cid)
    (hfind : cardsGet g.cards cid = some card)
    (hcollect : collectResolveAtoms g.view top.id top.choices (onResolveEffects card) =
      .ok effAtoms) :
    run rapi ans g = apply_atoms rapi g (effAtoms ++ [.popStack, .resetPriority]) ∧
    (∀ (choices : Choices) (idx : Nat) (k : String) (v : EffectInfo),
      (k, v) ∈ handlerInfo choices idx ↔ ((idx, k), v) ∈ choices) ∧
    (∀ (view : GameView) (oid : ObjectId) (choices : Choices) (l1 l2 : List (Nat × Effect)),
      collectResolveAtoms view oid choices (l1 ++ l2) =
        match collectResolveAtoms view oid choices l1 with
        | .error f => .error f
        | .ok a1 =>
          match collectResolveAtoms view oid choices l2 with
          | .error f => .error f
          | .ok a2 => .ok (a1 ++ a2)) := by
  refine ⟨?_, ?_, ?_⟩
  · simp only [run, runResolve, hstage, hup, htop, hcard, hfind, hcollect]
  · intro choices idx k v
    constructor
    · intro h
      simp only [handlerInfo, List.mem_map, List.mem_filter, decide_eq_true_eq] at h
      obtain ⟨e, ⟨hmem, hidx⟩, heq⟩ := h
      obtain ⟨⟨i, k2⟩, v2⟩ := e
      simp only at hidx heq
      cases heq
      cases hidx
      exact hmem
    · intro h
      simp only [handlerInfo, List.mem_map, List.mem_filter, decide_eq_true_eq]
      exact ⟨((idx, k), v), ⟨h, rfl⟩, rfl⟩
  · intro view oid choices l1 l2
    induction l1 with
    | nil =>
      cases h2 : collectResolveAtoms view oid choices l2 <;>
        simp [collectResolveAtoms, h2]
    | cons ie rest ih =>
      rw [List.cons_append]
      obtain ⟨i, e⟩ := ie
      cases e with
      | instant ie2 =>
        simp only [collectResolveAtoms]
        cases hex : ie2.execute (handlerInfo choices i) oid view with
        | error f => simp [hex]
        | ok atoms =>
          simp only [hex]
          rw [ih]
          cases h1 : collectResolveAtoms view oid choices rest with
          | error f => simp [h1, Except.map]
          | ok a1 =>
            simp only [h1]
            cases h2 : collectResolveAtoms view oid choices l2 with
            | error f => simp [h2, Except.map]
            | ok a2 => simp [h2, Except.map, List.append_assoc]
      | continuous ce => cases ce

/-- Witness for C3: resolving the concrete damage card on `g3c`. -/
theorem resolve_top_c3_witness :
    (g3c.latest_gamestate.game_stage = .gameRunning ∧
      g3c.latest_gamestate.unpassed_players = [] ∧
      g3c.latest_gamestate.get_stack.objects.getLast? = some top3c ∧
      top3c.underlying_card = some 5 ∧
      cardsGet g3c.cards 5 = some card3c ∧
      collectResolveAtoms g3c.view top3c.id top3c.choices (onResolveEffects card3c) =
        .ok [.dealDamage 3 1 (.player 7)]) ∧
    (run rapi0 ans10 g3c =
      apply_atoms rapi0 g3c ([.dealDamage 3 1 (.player 7)] ++ [.popStack, .resetPriority]) ∧
    (∀ (choices : Choices) (idx : Nat) (k : String) (v : EffectInfo),
      (k, v) ∈ handlerInfo choices idx ↔ ((idx, k), v) ∈ choices) ∧
    (∀ (view : GameView) (oid : ObjectId) (choices : Choices) (l1 l2 : List (Nat × Effect)),
      collectResolveAtoms view oid choices (l1 ++ l2) =
        match collectResolveAtoms view oid choices l1 with
        | .error f => .error f
        | .ok a1 =>
          match collectResolveAtoms view oid choices l2 with
          | .error f => .error f
          | .ok a2 => .ok (a1 ++ a2))) :=
  ⟨⟨rfl, rfl, rfl, rfl, rfl, rfl⟩,
    resolve_top_c3 rapi0 ans10 g3c top3c 5 card3c [.dealDamage 3 1 (.player 7)]
      rfl rfl rfl rfl rfl rfl⟩

theorem ZonesOk.set (zs : List (ZoneId × GameZone)) (z : ZoneId) (w : GameZone)
    (h : ZonesOk zs) (hw : ∀ o ∈ w.objects, ZoneControllerOk z o) :
    ZonesOk (zonesSet zs z w) := by
  intro p hp o ho
  rcases mem_zonesSet z w p zs hp with h1 | h1
  · exact h p h1 o ho
  · cases h1
    exact hw o ho

theorem ZonesOk.of_get (zs : List (ZoneId × GameZone)) (h : ZonesOk zs) (z : ZoneId)
    (w : GameZone) (hg : zonesGet zs z = some w) : ∀ o ∈ w.objects, ZoneControllerOk z o :=
  fun o ho => h (z, w) (zonesGet_mem z w zs hg) o ho

theorem fromCards_controller (rapi : RandApi) :
    ∀ (cards : List CardId) (r : RandState) (o : GameObject),
      o ∈ (fromCards rapi r cards).1 → o.controller = none := by
  intro cards
  induction cards with
  | nil =>
    intro r o h
    simp [fromCards] at h
  | cons c rest ih =>
    intro r o h
    simp only [fromCards, List.mem_cons] at h
    rcases h with rfl | h
    · rfl
    · exact ih _ o h

theorem playerZones_ok (rapi : RandApi) :
    ∀ (players : List Player) (r : RandState), ZonesOk (playerZones rapi r players).1 := by
  intro players
  induction players with
  | nil =>
    intro r p hp
    simp [playerZones] at hp
  | cons pl rest ih =>
    intro r p hp
    simp only [playerZones] at hp
    rcases List.mem_append.mp hp with h1 | h1
    · rcases List.mem_cons.mp h1 with h2 | h1
      · cases h2
        intro o ho
        simp [GameZone.empty] at ho
      · rcases List.mem_cons.mp h1 with h2 | h1
        · cases h2
          intro o ho
          exact fromCards_controller rapi pl.initial_cards r o ho
        · rcases List.mem_cons.mp h1 with h2 | h1
          · cases h2
            intro o ho
            simp [GameZone.empty] at ho
          · simp at h1
    · exact ih _ p h1

theorem new_game_state_controllerOk (rapi : RandApi) (r : RandState) (players : List Player)
    (order : List PlayerId) : ControllerOk (new_game_state_with rapi r players order).1 := by
  intro p hp
  simp only [new_game_state_with] at hp
  rcases List.mem_append.mp hp with h1 | h1
  · exact playerZones_ok rapi players r p h1
  · intro o ho
    rcases List.mem_cons.mp h1 with h2 | h1
    · cases h2
      simp [GameZone.empty] at ho
    · rcases List.mem_cons.mp h1 with h2 | h1
      · cases h2
        simp [GameZone.empty] at ho
      · simp at h1

theorem apply_atom_controllerOk (rapi : RandApi)
    (hshuffle : ∀ (r : RandState) (l : List GameObject) (o : GameObject),
      o ∈ (rapi.shuffle_objects r l).1 → o ∈ l)
    (st : GameState) (r : RandState) (a : GameAtom) (stp : GameState × RandState)
    (h : ControllerOk st) (hok : apply_atom rapi st r a = .ok stp) :
    ControllerOk stp.1 := by
  cases a with
  | startGame =>
    simp only [apply_atom] at hok
    split at hok
    · cases hok
    · injection hok with h2
      subst h2
      exact h
  | dealDamage amount source target =>
    simp only [apply_atom] at hok
    rcases target with ply | ob
    · cases hok
    · cases hok
  | keepHand player =>
    simp only [apply_atom] at hok
    split at hok
    · injection hok with h2
      subst h2
      exact h
    · cases hok
  | shuffleHandIntoLibrary player =>
    simp only [apply_atom] at hok
    split at hok
    · next hand library h1 h2 =>
      injection hok with h3
      subst h3
      refine ZonesOk.set _ _ _ (ZonesOk.set _ _ _ h ?_) ?_
      · intro o ho
        simp [GameZone.empty] at ho
      · intro o ho
        have hmem := hshuffle r (library.objects ++ hand.objects) o ho
        rcases List.mem_append.mp hmem with hm | hm
        · exact ZonesOk.of_get _ h _ _ h2 o hm
        · exact ZonesOk.of_get _ h _ _ h1 o hm
    · cases hok
  | drawCards player count =>
    simp only [apply_atom] at hok
    split at hok
    · next hand library h1 h2 =>
      injection hok with h3
      subst h3
      refine ZonesOk.set _ _ _ (ZonesOk.set _ _ _ h ?_) ?_
      · intro o ho
        rcases List.mem_append.mp ho with hm | hm
        · exact ZonesOk.of_get _ h _ _ h1 o hm
        · exact ZonesOk.of_get _ h _ _ h2 o (List.drop_subset _ _ hm)
      · intro o ho
        exact ZonesOk.of_get _ h _ _ h2 o (List.take_subset _ _ ho)
    · cases hok
  | passPriority player =>
    simp only [apply_atom] at hok
    split at hok
    · injection hok with h2
      subst h2
      exact h
    · cases hok
  | playerPlayCard player zfrom object choices =>
    simp only [apply_atom] at hok
    split at hok
    · cases hok
    · split at hok
      · next fromZone stackZone h1 h2 =>
        split at hok
        · next objRest h3 =>
          obtain ⟨obj, rest⟩ := objRest
          injection hok with h4
          subst h4
          obtain ⟨hoin, hsub⟩ := removeFirstById_subset object obj rest fromZone.objects h3
          refine ZonesOk.set _ _ _ (ZonesOk.set _ _ _ h ?_) ?_
          · intro o ho
            exact ZonesOk.of_get _ h _ _ h1 o (hsub o ho)
          · intro o ho
            rcases List.mem_append.mp ho with hm | hm
            · exact ZonesOk.of_get _ h _ _ h2 o hm
            · rcases List.mem_singleton.mp hm with rfl
              rfl
        · cases hok
      · cases hok
  | resetPriority =>
    simp only [apply_atom] at hok
    injection hok with h2
    subst h2
    exact h
  | popStack =>
    simp only [apply_atom] at hok
    split at hok
    · next stackZone h1 =>
      injection hok with h2
      subst h2
      refine ZonesOk.set _ _ _ h ?_
      intro o ho
      exact ZonesOk.of_get _ h _ _ h1 o (List.dropLast_subset _ ho)
    · cases hok

/-- C8 — objects are created into the library with no controller, and in
every reachable state every object in a hand, library or discard zone has
`controller = none` while every object on the stack or battlefield has
`controller = some`; every successfully applied atom preserves this
(`PlayerPlayCard` sets the controller to the playing player as it moves the
object onto the stack). `hshuffle` states the only fact used about the
external RNG shuffle: it returns a selection of its input objects. -/
theorem controller_invariant_c8 (rapi : RandApi)
    (hshuffle : ∀ (r : RandState) (l : List GameObject) (o : GameObject),
      o ∈ (rapi.shuffle_objects r l).1 → o ∈ l) :
    (∀ (r : RandState) (c : CardId), (GameObject.from_card rapi r c).1.controller = none) ∧
    (∀ p, Reachable rapi p → ControllerOk p.1) := by
  refine ⟨fun r c => rfl, ?_⟩
  intro p hreach
  induction hreach with
  | init r players order => exact new_game_state_controllerOk rapi r players order
  | step p a p2 hr hok ih => exact apply_atom_controllerOk rapi hshuffle p.1 p.2 a p2 ih hok

/-- Witness for C8 with the trivial concrete RNG (identity shuffle). -/
theorem controller_invariant_c8_witness :
    (∀ (r : RandState) (l : List GameObject) (o : GameObject),
      o ∈ (rapi0.shuffle_objects r l).1 → o ∈ l) ∧
    ((∀ (r : RandState) (c : CardId), (GameObject.from_card rapi0 r c).1.controller = none) ∧
      (∀ p, Reachable rapi0 p → ControllerOk p.1)) :=
  ⟨fun _ _ _ ho => ho, controller_invariant_c8 rapi0 (fun _ _ _ ho => ho)⟩

end Technomancy
